import Mathlib

/-!
Shallow embedding of `consta-pool` (`src/lib.rs`): a constant-product AMM
pool over `u64` reserves with a `u128` invariant constant.

Machine integers are modelled as `ℕ`:
* reserves are `u64` values; the `u128` product of two `u64` values is exact,
  so `constant_product` needs no reduction;
* Rust's `checked_sub` / `checked_add` / `checked_div` are modelled by
  `Option`-returning checks against the `u64` range;
* the `as u64` cast of a `u128` (which truncates in Rust, in every build
  profile) is modelled by `% 2^64` (`wrap64`);
* the unchecked `u64` subtractions (`new_native_reserve - self.native_reserve`
  etc.) wrap in release builds; we model the well-defined two's-complement
  wrap `(a + 2^64 - b) % 2^64` (`sub64`).  Debug builds panic instead of
  wrapping; every concrete evaluation below that exercises these paths is
  chosen so that no wrap occurs, hence holds in both profiles, except where
  a comment says otherwise.

Fallible methods return `Except PoolError`; methods taking `&mut self` (and,
for frame reasoning, those taking `&self`) are modelled in state-passing
style, returning the (possibly updated) pool alongside the result, so that
"the pool is unchanged on failure / by a simulation" is statable.
-/

def U64LIM : ℕ := 2 ^ 64

/-- Truncating `as u64` cast of a wider value. -/
def wrap64 (x : ℕ) : ℕ := x % U64LIM

/-- Unchecked `u64` subtraction `a - b` (two's-complement wrap, as in Rust
release builds); for `a, b < 2^64` this equals `a - b` when `b ≤ a`. -/
def sub64 (a b : ℕ) : ℕ := (a + U64LIM - b) % U64LIM

/-- Rust `u64::checked_sub`. -/
def checked_sub (a b : ℕ) : Option ℕ :=
  if b ≤ a then some (a - b) else none

/-- Rust `u64::checked_add` (operands assumed in `u64` range). -/
def checked_add64 (a b : ℕ) : Option ℕ :=
  if a + b < U64LIM then some (a + b) else none

/-- Rust `checked_div` (fails exactly on a zero divisor). -/
def checked_div (a b : ℕ) : Option ℕ :=
  if b = 0 then none else some (a / b)

/-- `enum PoolError` from `src/lib.rs`. -/
inductive PoolError where
  | SlippageExceeded
  | InsufficientPoolFunds
  | InvalidAmount
  | Overflow
deriving DecidableEq, Repr

/-- `struct LiquidityPool` from `src/lib.rs`: `u64` reserves, `u128`
constant product. -/
structure LiquidityPool where
  initial_token_reserve : ℕ
  native_reserve : ℕ
  token_reserve : ℕ
  constant_product : ℕ
deriving DecidableEq, Repr

namespace LiquidityPool

/-- `LiquidityPool::new`.  `native_reserve as u128 * token_reserve as u128`
is exact for `u64` inputs, so the product is not reduced. -/
def new (native_reserve token_reserve : ℕ) : Except PoolError LiquidityPool :=
  if native_reserve = 0 ∨ token_reserve = 0 then
    .error .InvalidAmount
  else
    .ok { initial_token_reserve := token_reserve
          native_reserve := native_reserve
          token_reserve := token_reserve
          constant_product := native_reserve * token_reserve }

/-- `LiquidityPool::buy` (`&mut self`): the returned pool is the post-call
state of `self` — unchanged on every error path.  The source's locals are
inlined: `new_native_reserve = wrap64 q` (the `as u64` truncation of the
`u128` quotient) and `native_sold = sub64 new_native_reserve
self.native_reserve` (the unchecked `u64` subtraction). -/
def buy (self : LiquidityPool) (token_amount : ℕ) (max_native : Option ℕ) :
    Except PoolError ℕ × LiquidityPool :=
  if token_amount = 0 then (.error .InvalidAmount, self)
  else
    match checked_sub self.token_reserve token_amount with
    | none => (.error .InsufficientPoolFunds, self)
    | some new_token_reserve =>
      match checked_div self.constant_product new_token_reserve with
      | none => (.error .Overflow, self)
      | some q =>
        match max_native with
        | some m =>
          if m < sub64 (wrap64 q) self.native_reserve then
            (.error .SlippageExceeded, self)
          else (.ok (sub64 (wrap64 q) self.native_reserve),
                { self with native_reserve := wrap64 q
                            token_reserve := new_token_reserve })
        | none =>
          (.ok (sub64 (wrap64 q) self.native_reserve),
           { self with native_reserve := wrap64 q
                       token_reserve := new_token_reserve })

/-- `LiquidityPool::sell` (`&mut self`). -/
def sell (self : LiquidityPool) (token_amount : ℕ) (min_native : Option ℕ) :
    Except PoolError ℕ × LiquidityPool :=
  if token_amount = 0 then (.error .InvalidAmount, self)
  else if self.token_reserve < token_amount then
    (.error .InsufficientPoolFunds, self)
  else
    match checked_add64 self.token_reserve token_amount with
    | none => (.error .Overflow, self)
    | some new_token_reserve =>
      match checked_div self.constant_product new_token_reserve with
      | none => (.error .Overflow, self)
      | some q =>
        match min_native with
        | some m =>
          if sub64 self.native_reserve (wrap64 q) < m then
            (.error .SlippageExceeded, self)
          else (.ok (sub64 self.native_reserve (wrap64 q)),
                { self with native_reserve := wrap64 q
                            token_reserve := new_token_reserve })
        | none =>
          (.ok (sub64 self.native_reserve (wrap64 q)),
           { self with native_reserve := wrap64 q
                       token_reserve := new_token_reserve })

/-- `LiquidityPool::simulate_buy` (`&self`): every path returns `self`
unchanged. -/
def simulate_buy (self : LiquidityPool) (token_amount : ℕ)
    (min_native : Option ℕ) : Except PoolError ℕ × LiquidityPool :=
  if token_amount = 0 then (.error .InvalidAmount, self)
  else
    match checked_sub self.token_reserve token_amount with
    | none => (.error .InsufficientPoolFunds, self)
    | some new_token_reserve =>
      match checked_div self.constant_product new_token_reserve with
      | none => (.error .Overflow, self)
      | some q =>
        match min_native with
        | some m =>
          if sub64 (wrap64 q) self.native_reserve < m then
            (.error .SlippageExceeded, self)
          else (.ok (sub64 (wrap64 q) self.native_reserve), self)
        | none => (.ok (sub64 (wrap64 q) self.native_reserve), self)

/-- `LiquidityPool::simulate_sell` (`&self`): every path returns `self`
unchanged. -/
def simulate_sell (self : LiquidityPool) (token_amount : ℕ)
    (max_native : Option ℕ) : Except PoolError ℕ × LiquidityPool :=
  if token_amount = 0 then (.error .InvalidAmount, self)
  else if self.token_reserve < token_amount then
    (.error .InsufficientPoolFunds, self)
  else
    match checked_add64 self.token_reserve token_amount with
    | none => (.error .Overflow, self)
    | some new_token_reserve =>
      match checked_div self.constant_product new_token_reserve with
      | none => (.error .Overflow, self)
      | some q =>
        match max_native with
        | some m =>
          if m < sub64 self.native_reserve (wrap64 q) then
            (.error .SlippageExceeded, self)
          else (.ok (sub64 self.native_reserve (wrap64 q)), self)
        | none => (.ok (sub64 self.native_reserve (wrap64 q)), self)

/-- `LiquidityPool::calculate_tokens_received` (`&self`).  Note the source
uses an unchecked `u64` addition `self.native_reserve + native_amount`
(wrap) and unchecked subtraction for the result. -/
def calculate_tokens_received (self : LiquidityPool) (native_amount : ℕ) :
    Except PoolError ℕ :=
  if native_amount = 0 then .error .InvalidAmount
  else
    match checked_div self.constant_product
        (wrap64 (self.native_reserve + native_amount)) with
    | none => .error .Overflow
    | some q => .ok (sub64 self.token_reserve (wrap64 q))

/-- `LiquidityPool::buy_tokens_with_native` (`&mut self`). -/
def buy_tokens_with_native (self : LiquidityPool) (native_amount : ℕ) :
    Except PoolError ℕ × LiquidityPool :=
  if native_amount = 0 then (.error .InvalidAmount, self)
  else
    match self.calculate_tokens_received native_amount with
    | .error e => (.error e, self)
    | .ok token_amount =>
      match self.buy token_amount none with
      | (.error e, p) => (.error e, p)
      | (.ok _, p) => (.ok token_amount, p)

/-- One trial of the inverse solver's loop body: clone the pool, `buy mid`
tokens on the clone, then `simulate_sell sell_tokens` on the result,
yielding the native currency the fixed-size sale would now receive
(lines 203–209 of the source, with the errors propagated by `?`). -/
def probeNative (self : LiquidityPool) (sell_tokens mid : ℕ) :
    Except PoolError ℕ :=
  match self.buy mid none with
  | (.error e, _) => .error e
  | (.ok _, temp_pool) => (temp_pool.simulate_sell sell_tokens none).1

/-- The wrapping `u64` subtraction `high - low` of the loop's break check
(line 224): unchecked in the source. -/
def breakGap (high low : ℕ) : ℕ := sub64 high low

/-- `let mid = low + (high - low) / 2` (line 200). -/
def midPt (low high : ℕ) : ℕ := low + (high - low) / 2

/-- The `while low <= high` loop of
`calculate_additional_tokens_for_desired_native` (lines 199–227).

`fuel` bounds the recursion depth; each iteration either returns or
strictly shrinks `high + 2 - low`, so `fuel = high + 2 - low` at entry is
never exhausted (`searchLoop_fuel_irrelevant` below); the fuel-0 branch is
unreachable from `calculate_additional_tokens_for_desired_native`. -/
def searchLoop (self : LiquidityPool) (sell_tokens desired_native : ℕ) :
    ℕ → ℕ → ℕ → ℕ → Except PoolError ℕ
  | 0, _low, _high, best_guess => .ok best_guess
  | fuel + 1, low, high, best_guess =>
    if low ≤ high then
      match probeNative self sell_tokens (midPt low high) with
      | .error e => .error e
      | .ok native_received =>
        if native_received = desired_native then .ok (midPt low high)
        else if native_received < desired_native then
          match checked_add64 (midPt low high) 1 with
          | none => .error .Overflow
          | some low₁ =>
            if breakGap high low₁ ≤ 1 then .ok best_guess
            else searchLoop self sell_tokens desired_native fuel low₁ high best_guess
        else
          match checked_sub (midPt low high) 1 with
          | none => .error .Overflow
          | some high₁ =>
            if breakGap high₁ low ≤ 1 then .ok (midPt low high)
            else searchLoop self sell_tokens desired_native fuel low high₁ (midPt low high)
    else .ok best_guess

/-- `LiquidityPool::calculate_additional_tokens_for_desired_native`
(`&mut self`).  The source clones `self` for every trial and never assigns
to `self`, so the post-call pool is `self` on every path. -/
def calculate_additional_tokens_for_desired_native (self : LiquidityPool)
    (sell_tokens desired_native : ℕ) : Except PoolError ℕ × LiquidityPool :=
  if sell_tokens = 0 ∨ desired_native = 0 then (.error .InvalidAmount, self)
  else
    (searchLoop self sell_tokens desired_native (self.token_reserve + 2)
       0 self.token_reserve self.token_reserve,
     self)

/-- Instrumented twin of `searchLoop` that additionally records the probed
candidates with the native amount each trial received, in probe order.
`searchLoopTrace_fst` below proves it computes exactly what `searchLoop`
computes. -/
def searchLoopTrace (self : LiquidityPool) (sell_tokens desired_native : ℕ) :
    ℕ → ℕ → ℕ → ℕ → Except PoolError (ℕ × List (ℕ × ℕ))
  | 0, _low, _high, best_guess => .ok (best_guess, [])
  | fuel + 1, low, high, best_guess =>
    if low ≤ high then
      match probeNative self sell_tokens (midPt low high) with
      | .error e => .error e
      | .ok native_received =>
        if native_received = desired_native then
          .ok (midPt low high, [(midPt low high, native_received)])
        else if native_received < desired_native then
          match checked_add64 (midPt low high) 1 with
          | none => .error .Overflow
          | some low₁ =>
            if breakGap high low₁ ≤ 1 then
              .ok (best_guess, [(midPt low high, native_received)])
            else
              match searchLoopTrace self sell_tokens desired_native fuel low₁ high best_guess with
              | .error e => .error e
              | .ok (r, tr) => .ok (r, (midPt low high, native_received) :: tr)
        else
          match checked_sub (midPt low high) 1 with
          | none => .error .Overflow
          | some high₁ =>
            if breakGap high₁ low ≤ 1 then
              .ok (midPt low high, [(midPt low high, native_received)])
            else
              match searchLoopTrace self sell_tokens desired_native fuel low high₁ (midPt low high) with
              | .error e => .error e
              | .ok (r, tr) => .ok (r, (midPt low high, native_received) :: tr)
    else .ok (best_guess, [])

/-- Instrumented twin of `calculate_additional_tokens_for_desired_native`
returning the probe trace alongside the result. -/
def calcAdditionalTrace (self : LiquidityPool) (sell_tokens desired_native : ℕ) :
    Except PoolError (ℕ × List (ℕ × ℕ)) :=
  if sell_tokens = 0 ∨ desired_native = 0 then .error .InvalidAmount
  else
    searchLoopTrace self sell_tokens desired_native (self.token_reserve + 2)
      0 self.token_reserve self.token_reserve

end LiquidityPool

deriving instance DecidableEq for Except

/-! ### Concrete pools used in witnesses and counterexamples -/

/-- The spec's §8 scenario pool: `new(1000, 1000)`, `k = 1 000 000`. -/
def poolK : LiquidityPool := ⟨1000, 1000, 1000, 1000000⟩

/-- The smallest constructible pool: `new(1, 1)`. -/
def poolUnit : LiquidityPool := ⟨1, 1, 1, 1⟩

/-- `new(2^32, 2^32 + 1)`: its `k = 2^64 + 2^32` makes the `u128 → u64`
cast in `buy` truncate when the whole token reserve but one is bought. -/
def poolTrunc : LiquidityPool := ⟨2 ^ 32 + 1, 2 ^ 32, 2 ^ 32 + 1, 2 ^ 32 * (2 ^ 32 + 1)⟩

/-- `new(2, 5)`: `simulate_buy(1)` on it costs 0 native units. -/
def poolZeroCost : LiquidityPool := ⟨5, 2, 5, 10⟩

/-- `new(5, 20)`: small pool whose floor divisions make the
buy-then-sell proceeds non-monotone by one unit. -/
def poolJitter : LiquidityPool := ⟨20, 5, 20, 100⟩

namespace LiquidityPool

/-! ### Elimination and frame helper lemmas -/

/-- Unfolding a successful `buy`: the guards that passed and the exact
post-state. -/
theorem buy_ok_elim {p : LiquidityPool} {amt : ℕ} {b : Option ℕ} {v : ℕ}
    {p' : LiquidityPool} (h : p.buy amt b = (.ok v, p')) :
    amt ≠ 0 ∧ amt ≤ p.token_reserve ∧ p.token_reserve - amt ≠ 0 ∧
    v = sub64 (wrap64 (p.constant_product / (p.token_reserve - amt))) p.native_reserve ∧
    p' = { p with
           native_reserve := wrap64 (p.constant_product / (p.token_reserve - amt)),
           token_reserve := p.token_reserve - amt } := by
  unfold buy at h
  split at h
  · injection h with h1 h2; exact Except.noConfusion h1
  rename_i hz
  split at h
  · injection h with h1 h2; exact Except.noConfusion h1
  rename_i ntr heq
  split at h
  · injection h with h1 h2; exact Except.noConfusion h1
  rename_i q heq2
  rw [checked_sub] at heq
  split at heq
  case isFalse => exact Option.noConfusion heq
  rename_i hle
  injection heq with hntr
  rw [checked_div] at heq2
  split at heq2
  case isTrue => exact Option.noConfusion heq2
  rename_i hnz
  injection heq2 with hq
  subst hntr
  subst hq
  split at h
  · split at h
    · injection h with h1 h2; exact Except.noConfusion h1
    · injection h with h1 h2
      exact ⟨hz, hle, hnz, (Except.ok.inj h1).symm, h2.symm⟩
  · injection h with h1 h2
    exact ⟨hz, hle, hnz, (Except.ok.inj h1).symm, h2.symm⟩

/-- Unfolding a successful `sell`. -/
theorem sell_ok_elim {p : LiquidityPool} {amt : ℕ} {b : Option ℕ} {v : ℕ}
    {p' : LiquidityPool} (h : p.sell amt b = (.ok v, p')) :
    amt ≠ 0 ∧ amt ≤ p.token_reserve ∧ p.token_reserve + amt < U64LIM ∧
    v = sub64 p.native_reserve (wrap64 (p.constant_product / (p.token_reserve + amt))) ∧
    p' = { p with
           native_reserve := wrap64 (p.constant_product / (p.token_reserve + amt)),
           token_reserve := p.token_reserve + amt } := by
  unfold sell at h
  split at h
  · injection h with h1 h2; exact Except.noConfusion h1
  rename_i hz
  split at h
  · injection h with h1 h2; exact Except.noConfusion h1
  rename_i hgt
  split at h
  · injection h with h1 h2; exact Except.noConfusion h1
  rename_i ntr heq
  split at h
  · injection h with h1 h2; exact Except.noConfusion h1
  rename_i q heq2
  rw [checked_add64] at heq
  split at heq
  case isFalse => exact Option.noConfusion heq
  rename_i hlim
  injection heq with hntr
  rw [checked_div] at heq2
  split at heq2
  case isTrue => exact Option.noConfusion heq2
  rename_i hnz
  injection heq2 with hq
  subst hntr
  subst hq
  split at h
  · split at h
    · injection h with h1 h2; exact Except.noConfusion h1
    · injection h with h1 h2
      exact ⟨hz, by omega, hlim, (Except.ok.inj h1).symm, h2.symm⟩
  · injection h with h1 h2
    exact ⟨hz, by omega, hlim, (Except.ok.inj h1).symm, h2.symm⟩

/-- `simulate_buy` leaves the pool untouched on every path. -/
theorem simulate_buy_snd (p : LiquidityPool) (amt : ℕ) (b : Option ℕ) :
    (p.simulate_buy amt b).2 = p := by
  unfold simulate_buy
  split
  · rfl
  split
  · rfl
  split
  · rfl
  split
  · split <;> rfl
  · rfl

/-- `simulate_sell` leaves the pool untouched on every path. -/
theorem simulate_sell_snd (p : LiquidityPool) (amt : ℕ) (b : Option ℕ) :
    (p.simulate_sell amt b).2 = p := by
  unfold simulate_sell
  split
  · rfl
  split
  · rfl
  split
  · rfl
  split
  · rfl
  split
  · split <;> rfl
  · rfl

/-- The inverse solver never writes to the live pool. -/
theorem calc_additional_snd (p : LiquidityPool) (s d : ℕ) :
    (p.calculate_additional_tokens_for_desired_native s d).2 = p := by
  unfold calculate_additional_tokens_for_desired_native
  split <;> rfl

/-- Unfolding a successful unbounded `simulate_buy`. -/
theorem simulate_buy_none_ok_elim {p : LiquidityPool} {amt v : ℕ}
    (h : (p.simulate_buy amt none).1 = .ok v) :
    amt ≠ 0 ∧ amt ≤ p.token_reserve ∧ p.token_reserve - amt ≠ 0 ∧
    v = sub64 (wrap64 (p.constant_product / (p.token_reserve - amt))) p.native_reserve := by
  unfold simulate_buy at h
  split at h
  · exact Except.noConfusion h
  rename_i hz
  split at h
  · exact Except.noConfusion h
  rename_i ntr heq
  split at h
  · exact Except.noConfusion h
  rename_i q heq2
  rw [checked_sub] at heq
  split at heq
  case isFalse => exact Option.noConfusion heq
  rename_i hle
  injection heq with hntr
  rw [checked_div] at heq2
  split at heq2
  case isTrue => exact Option.noConfusion heq2
  rename_i hnz
  injection heq2 with hq
  subst hntr
  subst hq
  exact ⟨hz, hle, hnz, (Except.ok.inj h).symm⟩

/-- Unfolding a successful unbounded `simulate_sell`. -/
theorem simulate_sell_none_ok_elim {p : LiquidityPool} {amt v : ℕ}
    (h : (p.simulate_sell amt none).1 = .ok v) :
    amt ≠ 0 ∧ amt ≤ p.token_reserve ∧ p.token_reserve + amt < U64LIM ∧
    v = sub64 p.native_reserve (wrap64 (p.constant_product / (p.token_reserve + amt))) := by
  unfold simulate_sell at h
  split at h
  · exact Except.noConfusion h
  rename_i hz
  split at h
  · exact Except.noConfusion h
  rename_i hgt
  split at h
  · exact Except.noConfusion h
  rename_i ntr heq
  split at h
  · exact Except.noConfusion h
  rename_i q heq2
  rw [checked_add64] at heq
  split at heq
  case isFalse => exact Option.noConfusion heq
  rename_i hlim
  injection heq with hntr
  rw [checked_div] at heq2
  split at heq2
  case isTrue => exact Option.noConfusion heq2
  rename_i hnz
  injection heq2 with hq
  subst hntr
  subst hq
  exact ⟨hz, by omega, hlim, (Except.ok.inj h).symm⟩

/-- Evaluating `buy` with a spend cap once the guards are known to pass. -/
theorem buy_some_eval {p : LiquidityPool} {amt : ℕ} (m : ℕ)
    (hz : amt ≠ 0) (hle : amt ≤ p.token_reserve) (hnz : p.token_reserve - amt ≠ 0) :
    p.buy amt (some m) =
      if m < sub64 (wrap64 (p.constant_product / (p.token_reserve - amt))) p.native_reserve
      then (.error .SlippageExceeded, p)
      else (.ok (sub64 (wrap64 (p.constant_product / (p.token_reserve - amt))) p.native_reserve),
            { p with
              native_reserve := wrap64 (p.constant_product / (p.token_reserve - amt)),
              token_reserve := p.token_reserve - amt }) := by
  unfold buy
  simp [checked_sub, checked_div, hz, hle, hnz]

/-- Unwrapping the two `u64` wrap operations when no wrap occurs. -/
theorem wrap64_eq_of_lt {x : ℕ} (h : x < U64LIM) : wrap64 x = x :=
  Nat.mod_eq_of_lt h

theorem sub64_eq_of_le {a b : ℕ} (hba : b ≤ a) (ha : a < U64LIM) :
    sub64 a b = a - b := by
  unfold sub64
  rw [show a + U64LIM - b = U64LIM + (a - b) by omega, Nat.add_mod_left]
  exact Nat.mod_eq_of_lt (by omega)

/-- Unfolding a successful probe of the inverse solver: the clone's
post-`buy` state and the trial sale that succeeded on it. -/
theorem probeNative_ok_elim {p : LiquidityPool} {s mid v : ℕ}
    (h : probeNative p s mid = .ok v) :
    ∃ w p₁, p.buy mid none = (.ok w, p₁) ∧ (p₁.simulate_sell s none).1 = .ok v := by
  unfold probeNative at h
  split at h
  · exact Except.noConfusion h
  rename_i w p₁ heq
  exact ⟨w, p₁, heq, h⟩

/-- `buy` never touches `constant_product`, on any path. -/
theorem buy_k (p : LiquidityPool) (amt : ℕ) (b : Option ℕ) :
    ((p.buy amt b).2).constant_product = p.constant_product := by
  unfold buy
  split
  · rfl
  split
  · rfl
  split
  · rfl
  split
  · split <;> rfl
  · rfl

/-- `sell` never touches `constant_product`, on any path. -/
theorem sell_k (p : LiquidityPool) (amt : ℕ) (b : Option ℕ) :
    ((p.sell amt b).2).constant_product = p.constant_product := by
  unfold sell
  split
  · rfl
  split
  · rfl
  split
  · rfl
  split
  · rfl
  split
  · split <;> rfl
  · rfl

end LiquidityPool

/-- `new(2^64 - 1, 1)`: the largest-native constructible pool; adding 2 to
its native reserve exceeds the `u64` width. -/
def poolMax : LiquidityPool := ⟨1, 2 ^ 64 - 1, 1, 2 ^ 64 - 1⟩

/-! ### Claims -/

/-- C10: `simulate_buy` and `simulate_sell` never mutate the pool: for every
pool and every input, all fields of the pool are identical before and after
the call, regardless of whether it succeeds or fails. -/
theorem c10_simulate_never_mutates :
    ∀ (p : LiquidityPool) (amt : ℕ) (b : Option ℕ),
      (p.simulate_buy amt b).2 = p ∧ (p.simulate_sell amt b).2 = p :=
  fun p amt b => ⟨LiquidityPool.simulate_buy_snd p amt b,
                  LiquidityPool.simulate_sell_snd p amt b⟩

/-- C6 (counterexample): on the pool `new(1000, 1000)` the inverse solver
returns 135 yet leaves the live pool at (1000, 1000); had the winning
buy been applied through the real execution path the pool would be
(1156, 865).  So the pool state after the call does not reflect the
winning buy having been executed. -/
theorem c6_counterexample :
    LiquidityPool.new 1000 1000 = .ok poolK ∧
    poolK.calculate_additional_tokens_for_desired_native 100 120 = (.ok 135, poolK) ∧
    (poolK.buy 135 none).2 = (⟨1000, 1156, 865, 1000000⟩ : LiquidityPool) ∧
    poolK ≠ (⟨1000, 1156, 865, 1000000⟩ : LiquidityPool) := by
  refine ⟨by decide, by decide, by decide, by decide⟩

/-- C6 (amended): the inverse solver explores candidate trades only on
clones of the pool; the live pool is left completely unchanged by every
call — the winning candidate is not applied, the caller must execute it. -/
theorem c6_solver_leaves_pool_unchanged :
    ∀ (p : LiquidityPool) (s d : ℕ),
      (p.calculate_additional_tokens_for_desired_native s d).2 = p :=
  LiquidityPool.calc_additional_snd

/-- C4 (counterexample): a buy of exactly the token reserve is not rejected
with `InsufficientPoolFunds`: the checked subtraction passes with a zero
result and the division by the zero reserve fails with `Overflow`. -/
theorem c4_counterexample :
    LiquidityPool.new 1000 1000 = .ok poolK ∧
    (poolK.buy 1000 none).1 = .error .Overflow ∧
    (poolK.simulate_buy 1000 none).1 = .error .Overflow ∧
    (poolK.buy 1000 none).1 ≠ .error .InsufficientPoolFunds := by
  refine ⟨by decide, by decide, by decide, by decide⟩

/-- C4 (amended): `buy` and `simulate_buy` fail with
`InsufficientPoolFunds` exactly when `token_amount > token_reserve`; at
`token_amount = token_reserve` (nonzero) the checked subtraction passes
and the zero divisor makes them fail with `Overflow` instead. -/
theorem c4_insufficient_vs_overflow :
    ∀ (p : LiquidityPool) (amt : ℕ) (b : Option ℕ),
      (p.token_reserve < amt →
        (p.buy amt b).1 = .error .InsufficientPoolFunds ∧
        (p.simulate_buy amt b).1 = .error .InsufficientPoolFunds) ∧
      (amt = p.token_reserve → amt ≠ 0 →
        (p.buy amt b).1 = .error .Overflow ∧
        (p.simulate_buy amt b).1 = .error .Overflow) := by
  intro p amt b
  constructor
  · intro hgt
    constructor
    · simp [LiquidityPool.buy, checked_sub, show ¬ amt = 0 by omega,
        show ¬ amt ≤ p.token_reserve by omega]
    · simp [LiquidityPool.simulate_buy, checked_sub, show ¬ amt = 0 by omega,
        show ¬ amt ≤ p.token_reserve by omega]
  · intro heq hz
    subst heq
    constructor
    · simp [LiquidityPool.buy, checked_sub, checked_div, hz]
    · simp [LiquidityPool.simulate_buy, checked_sub, checked_div, hz]

/-- C4 (witness): both amended branches at the concrete §8 pool. -/
theorem c4_witness :
    (poolK.buy 1001 none).1 = .error .InsufficientPoolFunds ∧
    (poolK.buy 1000 none).1 = .error .Overflow :=
  ⟨((c4_insufficient_vs_overflow poolK 1001 none).1 (by decide)).1,
   ((c4_insufficient_vs_overflow poolK 1000 none).2 (by decide) (by decide)).1⟩

/-- C3 (counterexample): `sell(1)` on the pool `new(1, 1)` succeeds and
drives `native_reserve` to exactly zero (`k = 1`, new token reserve 2,
`floor(1/2) = 0`), so strict positivity of both reserves is not preserved
by every successful operation. -/
theorem c3_counterexample :
    LiquidityPool.new 1 1 = .ok poolUnit ∧
    poolUnit.sell 1 none = (.ok 1, (⟨1, 0, 2, 1⟩ : LiquidityPool)) ∧
    ((poolUnit.sell 1 none).2).native_reserve = 0 := by
  refine ⟨by decide, by decide, by decide⟩

/-- C3 (amended): construction rejects a zero reserve on either side and
yields strictly positive reserves; every successful `buy`/`sell` keeps
`token_reserve` strictly positive (a buy of the whole reserve dies at the
zero division).  `native_reserve`, however, can be driven to zero by the
floor division (see the counterexample). -/
theorem c3_token_reserve_positive :
    (∀ t, LiquidityPool.new 0 t = .error .InvalidAmount) ∧
    (∀ n, LiquidityPool.new n 0 = .error .InvalidAmount) ∧
    (∀ n t q, LiquidityPool.new n t = .ok q →
      0 < q.native_reserve ∧ 0 < q.token_reserve) ∧
    (∀ (p : LiquidityPool) amt b v p', p.buy amt b = (.ok v, p') →
      0 < p'.token_reserve) ∧
    (∀ (p : LiquidityPool) amt b v p', p.sell amt b = (.ok v, p') →
      0 < p'.token_reserve) := by
  refine ⟨?_, ?_, ?_, ?_, ?_⟩
  · intro t; unfold LiquidityPool.new; exact if_pos (Or.inl rfl)
  · intro n; unfold LiquidityPool.new; exact if_pos (Or.inr rfl)
  · intro n t q h
    unfold LiquidityPool.new at h
    split at h
    · exact Except.noConfusion h
    rename_i hc
    push_neg at hc
    cases Except.ok.inj h
    exact ⟨Nat.pos_of_ne_zero hc.1, Nat.pos_of_ne_zero hc.2⟩
  · intro p amt b v p' h
    obtain ⟨-, -, hnz, -, hp'⟩ := LiquidityPool.buy_ok_elim h
    rw [hp']
    exact Nat.pos_of_ne_zero hnz
  · intro p amt b v p' h
    obtain ⟨hz, -, -, -, hp'⟩ := LiquidityPool.sell_ok_elim h
    rw [hp']
    show 0 < p.token_reserve + amt
    omega

/-- C3 (witness): the amended statement applied at concrete pools:
`new(3, 7)`, the §8 `buy(100)` and `sell(100)` outcomes. -/
theorem c3_witness :
    LiquidityPool.new 0 5 = .error .InvalidAmount ∧
    LiquidityPool.new 5 0 = .error .InvalidAmount ∧
    0 < ((⟨7, 3, 7, 21⟩ : LiquidityPool)).native_reserve ∧
    0 < ((⟨1000, 1111, 900, 1000000⟩ : LiquidityPool)).token_reserve ∧
    0 < ((⟨1000, 909, 1100, 1000000⟩ : LiquidityPool)).token_reserve :=
  ⟨c3_token_reserve_positive.1 5,
   c3_token_reserve_positive.2.1 5,
   (c3_token_reserve_positive.2.2.1 3 7 ⟨7, 3, 7, 21⟩ (by decide)).1,
   c3_token_reserve_positive.2.2.2.1 poolK 100 none 111 ⟨1000, 1111, 900, 1000000⟩ (by decide),
   c3_token_reserve_positive.2.2.2.2 poolK 100 none 91 ⟨1000, 909, 1100, 1000000⟩ (by decide)⟩

/-- C5: the claim says every width overflow yields the `Overflow` error.
The code instead: (a) in `buy`, the computed new native reserve
`floor(k / new_token_reserve)` = `2^64 + 2^32` exceeds the `u64` width on
`new(2^32, 2^32+1)` when `2^32` tokens are bought, and the `as u64` cast
silently truncates it to `2^32` — the call returns `Ok(0)` (in every Rust
build profile; `as` casts never panic) instead of `Err(Overflow)`;
(b) in `calculate_tokens_received`, `native_reserve + native_amount` is an
unchecked `u64` addition: on `new(2^64 - 1, 1)` with `native_amount = 2` it
exceeds the width, and the release-profile wrap yields `Ok(2)` (a debug
build panics) instead of `Err(Overflow)`. -/
theorem c5_unchecked_paths_no_overflow :
    LiquidityPool.new (2 ^ 32) (2 ^ 32 + 1) = .ok poolTrunc ∧
    U64LIM ≤ poolTrunc.constant_product / (poolTrunc.token_reserve - 2 ^ 32) ∧
    (poolTrunc.buy (2 ^ 32) none).1 = .ok 0 ∧
    (poolTrunc.buy (2 ^ 32) none).1 ≠ .error .Overflow ∧
    LiquidityPool.new (2 ^ 64 - 1) 1 = .ok poolMax ∧
    U64LIM ≤ poolMax.native_reserve + 2 ∧
    poolMax.calculate_tokens_received 2 = .ok 2 ∧
    poolMax.calculate_tokens_received 2 ≠ .error .Overflow := by
  refine ⟨by decide, by decide, by decide, by decide, by decide, by decide, by decide, by decide⟩

/-- C9 (counterexample): on `new(2, 5)`, `simulate_buy(1, None)` returns
cost `c = 0`; `buy(1, Some(c - 1))` then succeeds (bound `0` under
saturating reading, bound `2^64 - 1` under the wrapping `u64` reading —
either way `native_sold = 0` passes the cap) instead of failing with
`SlippageExceeded`. -/
theorem c9_counterexample :
    LiquidityPool.new 2 5 = .ok poolZeroCost ∧
    (poolZeroCost.simulate_buy 1 none).1 = .ok 0 ∧
    (poolZeroCost.buy 1 (some (0 - 1))).1 = .ok 0 ∧
    (poolZeroCost.buy 1 (some (sub64 0 1))).1 = .ok 0 ∧
    (poolZeroCost.buy 1 (some (sub64 0 1))).1 ≠ .error .SlippageExceeded := by
  refine ⟨by decide, by decide, by decide, by decide, by decide⟩

/-- C9 (amended): whenever `simulate_buy(amt, None)` returns a cost
`c ≥ 1`, `buy(amt, Some(c - 1))` fails with `SlippageExceeded` and
`buy(amt, Some(c))` succeeds returning exactly `c`. -/
theorem c9_slippage_guard :
    ∀ (p : LiquidityPool) (amt c : ℕ),
      (p.simulate_buy amt none).1 = .ok c → 1 ≤ c →
      (p.buy amt (some (c - 1))).1 = .error .SlippageExceeded ∧
      (p.buy amt (some c)).1 = .ok c := by
  intro p amt c hsim hc
  obtain ⟨hz, hle, hnz, hv⟩ := LiquidityPool.simulate_buy_none_ok_elim hsim
  constructor
  · have hb := LiquidityPool.buy_some_eval (c - 1) hz hle hnz
    rw [← hv] at hb
    rw [hb, if_pos (by omega)]
  · have hb := LiquidityPool.buy_some_eval c hz hle hnz
    rw [← hv] at hb
    rw [hb, if_neg (by omega)]

/-- C9 (witness): the guard at the §8 pool, `simulate_buy(100) = 111`. -/
theorem c9_witness :
    (poolK.buy 100 (some 110)).1 = .error .SlippageExceeded ∧
    (poolK.buy 100 (some 111)).1 = .ok 111 :=
  c9_slippage_guard poolK 100 111 (by decide) (by decide)

/-- C2: `constant_product` is exactly the product of the construction
reserves, no operation ever changes it (on success or failure), and after
every successful `buy` or `sell` the live product
`native_reserve × token_reserve` is at most `constant_product`. -/
theorem c2_constant_product_invariant :
    (∀ n t q, LiquidityPool.new n t = .ok q → q.constant_product = n * t) ∧
    (∀ (p : LiquidityPool) amt b, ((p.buy amt b).2).constant_product = p.constant_product) ∧
    (∀ (p : LiquidityPool) amt b, ((p.sell amt b).2).constant_product = p.constant_product) ∧
    (∀ (p : LiquidityPool) a, ((p.buy_tokens_with_native a).2).constant_product = p.constant_product) ∧
    (∀ (p : LiquidityPool) s d, ((p.calculate_additional_tokens_for_desired_native s d).2).constant_product = p.constant_product) ∧
    (∀ (p : LiquidityPool) amt b, ((p.simulate_buy amt b).2).constant_product = p.constant_product) ∧
    (∀ (p : LiquidityPool) amt b, ((p.simulate_sell amt b).2).constant_product = p.constant_product) ∧
    (∀ (p : LiquidityPool) amt b v p', p.buy amt b = (.ok v, p') →
      p'.native_reserve * p'.token_reserve ≤ p.constant_product) ∧
    (∀ (p : LiquidityPool) amt b v p', p.sell amt b = (.ok v, p') →
      p'.native_reserve * p'.token_reserve ≤ p.constant_product) := by
  refine ⟨?_, LiquidityPool.buy_k, LiquidityPool.sell_k, ?_, ?_, ?_, ?_, ?_, ?_⟩
  · intro n t q h
    unfold LiquidityPool.new at h
    split at h
    · exact Except.noConfusion h
    cases Except.ok.inj h
    rfl
  · intro p a
    unfold LiquidityPool.buy_tokens_with_native
    split
    · rfl
    split
    · rfl
    rename_i tok heq
    split
    · rename_i e p' heqb
      have hb := LiquidityPool.buy_k p tok none
      rw [heqb] at hb
      exact hb
    · rename_i w p' heqb
      have hb := LiquidityPool.buy_k p tok none
      rw [heqb] at hb
      exact hb
  · intro p s d
    rw [LiquidityPool.calc_additional_snd]
  · intro p amt b
    rw [LiquidityPool.simulate_buy_snd]
  · intro p amt b
    rw [LiquidityPool.simulate_sell_snd]
  · intro p amt b v p' h
    obtain ⟨-, -, -, -, hp'⟩ := LiquidityPool.buy_ok_elim h
    rw [hp']
    show wrap64 (p.constant_product / (p.token_reserve - amt)) * (p.token_reserve - amt)
      ≤ p.constant_product
    exact le_trans
      (Nat.mul_le_mul_right _ (Nat.mod_le _ _))
      (Nat.div_mul_le_self _ _)
  · intro p amt b v p' h
    obtain ⟨-, -, -, -, hp'⟩ := LiquidityPool.sell_ok_elim h
    rw [hp']
    show wrap64 (p.constant_product / (p.token_reserve + amt)) * (p.token_reserve + amt)
      ≤ p.constant_product
    exact le_trans
      (Nat.mul_le_mul_right _ (Nat.mod_le _ _))
      (Nat.div_mul_le_self _ _)

/-- C2 (witness): the parts with hypotheses, applied at `new(3, 7)` and at
the §8 pool's `buy(100)` / `sell(100)` outcomes. -/
theorem c2_witness :
    (⟨7, 3, 7, 21⟩ : LiquidityPool).constant_product = 3 * 7 ∧
    (⟨1000, 1111, 900, 1000000⟩ : LiquidityPool).native_reserve *
      (⟨1000, 1111, 900, 1000000⟩ : LiquidityPool).token_reserve ≤ poolK.constant_product ∧
    (⟨1000, 909, 1100, 1000000⟩ : LiquidityPool).native_reserve *
      (⟨1000, 909, 1100, 1000000⟩ : LiquidityPool).token_reserve ≤ poolK.constant_product :=
  ⟨c2_constant_product_invariant.1 3 7 ⟨7, 3, 7, 21⟩ (by decide),
   c2_constant_product_invariant.2.2.2.2.2.2.2.1 poolK 100 none 111
     ⟨1000, 1111, 900, 1000000⟩ (by decide),
   c2_constant_product_invariant.2.2.2.2.2.2.2.2 poolK 100 none 91
     ⟨1000, 909, 1100, 1000000⟩ (by decide)⟩

/-- C1 (counterexample): on `new(2^32, 2^32 + 1)` (which satisfies the
pool invariant exactly), buying `2^32` tokens succeeds and returns 0,
while `floor(k / (t - amt)) - n = 2^64`: the claimed formula for the
returned `native_spent` fails when the quotient exceeds the `u64` width
and is truncated by the `as u64` cast. -/
theorem c1_counterexample :
    LiquidityPool.new (2 ^ 32) (2 ^ 32 + 1) = .ok poolTrunc ∧
    (poolTrunc.buy (2 ^ 32) none).1 = .ok 0 ∧
    (0 : ℕ) ≠ poolTrunc.constant_product / (poolTrunc.token_reserve - 2 ^ 32)
      - poolTrunc.native_reserve := by
  refine ⟨by decide, by decide, by decide⟩

/-- C1 (amended): on a pool satisfying the documented invariant
`native_reserve × token_reserve ≤ constant_product`, and whenever the
post-trade quotient `floor(k / (t - amt))` fits the `u64` width, every
successful `buy(amt, _)` returns
`native_spent = floor(k / (t - amt)) - n`, sets `token_reserve` to
`t - amt` and `native_reserve` to `n + native_spent`. -/
theorem c1_buy_postconditions :
    ∀ (p : LiquidityPool) (amt : ℕ) (b : Option ℕ) (v : ℕ) (p' : LiquidityPool),
      p.native_reserve * p.token_reserve ≤ p.constant_product →
      p.constant_product / (p.token_reserve - amt) < U64LIM →
      p.buy amt b = (.ok v, p') →
      v = p.constant_product / (p.token_reserve - amt) - p.native_reserve ∧
      p'.token_reserve = p.token_reserve - amt ∧
      p'.native_reserve = p.native_reserve + v := by
  intro p amt b v p' hinv htr h
  obtain ⟨hz, hle, hnz, hv, hp'⟩ := LiquidityPool.buy_ok_elim h
  have ht : 0 < p.token_reserve := by omega
  have hn_le : p.native_reserve ≤ p.constant_product / p.token_reserve :=
    (Nat.le_div_iff_mul_le ht).2 hinv
  have hmono : p.constant_product / p.token_reserve
      ≤ p.constant_product / (p.token_reserve - amt) :=
    Nat.div_le_div_left (by omega) (by omega)
  have hn_le' : p.native_reserve ≤ p.constant_product / (p.token_reserve - amt) :=
    le_trans hn_le hmono
  have hs : sub64 (wrap64 (p.constant_product / (p.token_reserve - amt))) p.native_reserve
      = p.constant_product / (p.token_reserve - amt) - p.native_reserve := by
    rw [LiquidityPool.wrap64_eq_of_lt htr]
    exact LiquidityPool.sub64_eq_of_le hn_le' htr
  refine ⟨by rw [hv, hs], by rw [hp'], ?_⟩
  rw [hp', hv, hs]
  show wrap64 (p.constant_product / (p.token_reserve - amt))
    = p.native_reserve + (p.constant_product / (p.token_reserve - amt) - p.native_reserve)
  rw [LiquidityPool.wrap64_eq_of_lt htr]
  omega

/-- C1 (witness): the §8 scenario `buy(100)` on `new(1000, 1000)`:
spends 111, token reserve 900, native reserve 1111. -/
theorem c1_witness :
    (111 : ℕ) = poolK.constant_product / (poolK.token_reserve - 100) - poolK.native_reserve ∧
    (⟨1000, 1111, 900, 1000000⟩ : LiquidityPool).token_reserve = poolK.token_reserve - 100 ∧
    (⟨1000, 1111, 900, 1000000⟩ : LiquidityPool).native_reserve = poolK.native_reserve + 111 :=
  c1_buy_postconditions poolK 100 none 111 ⟨1000, 1111, 900, 1000000⟩
    (by decide) (by decide) (by decide)

/-- Floor-division cross inequality: for `0 < x2 ≤ x1` and any `s`, the
gap `k/x1 - k/(x1+s)` exceeds `k/x2 - k/(x2+s)` by at most one unit
(stated addition-only to avoid truncated subtraction). -/
theorem div_cross_le (k x1 x2 s : ℕ) (hx2 : 0 < x2) (hle : x2 ≤ x1) :
    k / x1 + k / (x2 + s) ≤ k / x2 + k / (x1 + s) + 1 := by
  have hx1 : 0 < x1 := lt_of_lt_of_le hx2 hle
  have hx2s : 0 < x2 + s := by omega
  have hx1s : 0 < x1 + s := by omega
  have hqa : (0 : ℚ) < (x1 : ℚ) := by exact_mod_cast hx1
  have hqb : (0 : ℚ) < (x2 : ℚ) := by exact_mod_cast hx2
  have hqbs : (0 : ℚ) < ((x2 + s : ℕ) : ℚ) := by exact_mod_cast hx2s
  have hqas : (0 : ℚ) < ((x1 + s : ℕ) : ℚ) := by exact_mod_cast hx1s
  have hC : ((k / x1 : ℕ) : ℚ) ≤ (k : ℚ) / (x1 : ℚ) := by
    rw [le_div_iff₀ hqa]
    exact_mod_cast Nat.div_mul_le_self k x1
  have hB : ((k / (x2 + s) : ℕ) : ℚ) ≤ (k : ℚ) / ((x2 + s : ℕ) : ℚ) := by
    rw [le_div_iff₀ hqbs]
    exact_mod_cast Nat.div_mul_le_self k (x2 + s)
  have hA : (k : ℚ) / (x2 : ℚ) < ((k / x2 : ℕ) : ℚ) + 1 := by
    rw [div_lt_iff₀ hqb]
    have h1 : k < (k / x2 + 1) * x2 := by
      calc k = x2 * (k / x2) + k % x2 := (Nat.div_add_mod k x2).symm
        _ < x2 * (k / x2) + x2 := by
            have := Nat.mod_lt k hx2
            omega
        _ = (k / x2 + 1) * x2 := by ring
    exact_mod_cast h1
  have hD : (k : ℚ) / ((x1 + s : ℕ) : ℚ) < ((k / (x1 + s) : ℕ) : ℚ) + 1 := by
    rw [div_lt_iff₀ hqas]
    have h1 : k < (k / (x1 + s) + 1) * (x1 + s) := by
      calc k = (x1 + s) * (k / (x1 + s)) + k % (x1 + s) := (Nat.div_add_mod k (x1 + s)).symm
        _ < (x1 + s) * (k / (x1 + s)) + (x1 + s) := by
            have := Nat.mod_lt k hx1s
            omega
        _ = (k / (x1 + s) + 1) * (x1 + s) := by ring
    exact_mod_cast h1
  have hcross : (k : ℚ) / (x1 : ℚ) + (k : ℚ) / ((x2 + s : ℕ) : ℚ)
      ≤ (k : ℚ) / (x2 : ℚ) + (k : ℚ) / ((x1 + s : ℕ) : ℚ) := by
    have hba : (x2 : ℚ) ≤ (x1 : ℚ) := by exact_mod_cast hle
    have hk : (0 : ℚ) ≤ (k : ℚ) := by positivity
    have hcs : (0 : ℚ) ≤ (s : ℚ) := by positivity
    push_cast
    push_cast at hqbs hqas
    rw [div_add_div _ _ (ne_of_gt hqa) (ne_of_gt hqbs),
        div_add_div _ _ (ne_of_gt hqb) (ne_of_gt hqas),
        div_le_div_iff₀ (by positivity) (by positivity)]
    nlinarith [mul_nonneg (mul_nonneg hk (sub_nonneg.2 hba))
        (by positivity : (0 : ℚ) ≤ (x1 : ℚ) * (s : ℚ) + (x2 : ℚ) * (s : ℚ) + (s : ℚ) * (s : ℚ))]
  have hfin : ((k / x1 + k / (x2 + s) : ℕ) : ℚ)
      < ((k / x2 + k / (x1 + s) : ℕ) : ℚ) + 2 := by
    have h1 : ((k / x1 : ℕ) : ℚ) + ((k / (x2 + s) : ℕ) : ℚ)
        < (((k / x2 : ℕ) : ℚ) + ((k / (x1 + s) : ℕ) : ℚ)) + 2 := by
      have h2 := add_le_add hC hB
      have h3 := add_lt_add hA hD
      linarith [hcross]
    push_cast
    push_cast at h1
    linarith
  have hnat : k / x1 + k / (x2 + s) < k / x2 + k / (x1 + s) + 2 := by exact_mod_cast hfin
  omega

/-- C8 (counterexample): on `new(5, 20)` with a fixed sale of 1 token, a
preceding buy of 6 tokens makes the sale yield 1 native unit while the
larger buy of 7 tokens makes it yield 0: both trial trades succeed, yet
the proceeds strictly decrease, so the claimed monotonicity (the stated
precondition for the binary search) fails on the code's floor divisions. -/
theorem c8_counterexample :
    LiquidityPool.new 5 20 = .ok poolJitter ∧
    (6 : ℕ) ≤ 7 ∧
    LiquidityPool.probeNative poolJitter 1 6 = .ok 1 ∧
    LiquidityPool.probeNative poolJitter 1 7 = .ok 0 ∧
    ¬ (1 : ℕ) ≤ (0 : ℕ) := by
  refine ⟨by decide, by decide, by decide, by decide, by decide⟩

/-- C8 (amended): the proceeds of the fixed-size sale are monotone in the
preceding buy size only up to one unit of floor rounding: for `m1 ≤ m2`
with both buy-then-simulated-sell trials succeeding, and the post-buy
quotient fitting the `u64` width, the proceeds for `m2` are at least the
proceeds for `m1` minus one. -/
theorem c8_proceeds_almost_monotone :
    ∀ (p : LiquidityPool) (s m1 m2 v1 v2 : ℕ),
      m1 ≤ m2 →
      LiquidityPool.probeNative p s m1 = .ok v1 →
      LiquidityPool.probeNative p s m2 = .ok v2 →
      p.constant_product / (p.token_reserve - m2) < U64LIM →
      v1 ≤ v2 + 1 := by
  intro p s m1 m2 v1 v2 h12 h1 h2 htr
  obtain ⟨w1, q1, hb1, hs1⟩ := LiquidityPool.probeNative_ok_elim h1
  obtain ⟨w2, q2, hb2, hs2⟩ := LiquidityPool.probeNative_ok_elim h2
  obtain ⟨hz1, hle1, hnz1, -, hp1⟩ := LiquidityPool.buy_ok_elim hb1
  obtain ⟨hz2, hle2, hnz2, -, hp2⟩ := LiquidityPool.buy_ok_elim hb2
  subst hp1
  subst hp2
  obtain ⟨hsz1, hsle1, hslim1, hv1⟩ := LiquidityPool.simulate_sell_none_ok_elim hs1
  obtain ⟨hsz2, hsle2, hslim2, hv2⟩ := LiquidityPool.simulate_sell_none_ok_elim hs2
  have hv1' : v1 = sub64 (wrap64 (p.constant_product / (p.token_reserve - m1)))
      (wrap64 (p.constant_product / (p.token_reserve - m1 + s))) := hv1
  have hv2' : v2 = sub64 (wrap64 (p.constant_product / (p.token_reserve - m2)))
      (wrap64 (p.constant_product / (p.token_reserve - m2 + s))) := hv2
  have hx2 : 0 < p.token_reserve - m2 := Nat.pos_of_ne_zero hnz2
  have hx1 : 0 < p.token_reserve - m1 := Nat.pos_of_ne_zero hnz1
  have hxle : p.token_reserve - m2 ≤ p.token_reserve - m1 := by omega
  have hq1 : p.constant_product / (p.token_reserve - m1)
      ≤ p.constant_product / (p.token_reserve - m2) :=
    Nat.div_le_div_left hxle hx2
  have hq1lt : p.constant_product / (p.token_reserve - m1) < U64LIM := lt_of_le_of_lt hq1 htr
  have hqs1 : p.constant_product / (p.token_reserve - m1 + s)
      ≤ p.constant_product / (p.token_reserve - m1) :=
    Nat.div_le_div_left (by omega) hx1
  have hqs2 : p.constant_product / (p.token_reserve - m2 + s)
      ≤ p.constant_product / (p.token_reserve - m2) :=
    Nat.div_le_div_left (by omega) hx2
  have hqs1lt : p.constant_product / (p.token_reserve - m1 + s) < U64LIM :=
    lt_of_le_of_lt hqs1 hq1lt
  have hqs2lt : p.constant_product / (p.token_reserve - m2 + s) < U64LIM :=
    lt_of_le_of_lt hqs2 htr
  rw [LiquidityPool.wrap64_eq_of_lt hq1lt, LiquidityPool.wrap64_eq_of_lt hqs1lt,
      LiquidityPool.sub64_eq_of_le hqs1 hq1lt] at hv1'
  rw [LiquidityPool.wrap64_eq_of_lt htr, LiquidityPool.wrap64_eq_of_lt hqs2lt,
      LiquidityPool.sub64_eq_of_le hqs2 htr] at hv2'
  have hkey := div_cross_le p.constant_product (p.token_reserve - m1) (p.token_reserve - m2) s
    hx2 hxle
  omega

/-- C8 (witness): the amended bound at the §8 pool with a 100-token sale,
buys of 100 vs 200 tokens: proceeds 111 and 139, and `111 ≤ 139 + 1`. -/
theorem c8_witness : (111 : ℕ) ≤ 139 + 1 :=
  c8_proceeds_almost_monotone poolK 100 100 200 111 139
    (by decide) (by decide) (by decide) (by decide)

/-- The plain loop computes exactly the first component of the
instrumented loop. -/
theorem searchLoop_eq_trace (p : LiquidityPool) (s d : ℕ) :
    ∀ (fuel low high best : ℕ),
      LiquidityPool.searchLoop p s d fuel low high best
        = (LiquidityPool.searchLoopTrace p s d fuel low high best).map Prod.fst := by
  intro fuel
  induction fuel with
  | zero => intro low high best; rfl
  | succ fuel ih =>
    intro low high best
    simp only [LiquidityPool.searchLoop, LiquidityPool.searchLoopTrace]
    split
    · split
      · rfl
      · split
        · rfl
        · split
          · split
            · rfl
            · rename_i low₁ hca
              split
              · rfl
              · rw [ih]
                cases LiquidityPool.searchLoopTrace p s d fuel low₁ high best with
                | error e => rfl
                | ok pr =>
                  obtain ⟨r, tr⟩ := pr
                  rfl
          · split
            · rfl
            · rename_i high₁ hcs
              split
              · rfl
              · rw [ih]
                cases LiquidityPool.searchLoopTrace p s d fuel low high₁
                    (LiquidityPool.midPt low high) with
                | error e => rfl
                | ok pr =>
                  obtain ⟨r, tr⟩ := pr
                  rfl
    · rfl

/-- The loop's value does not depend on the fuel once the fuel covers the
loop measure `high + 2 - low` (each iteration strictly shrinks it): the
fuel-0 fallback of the embedding is unreachable from
`calculate_additional_tokens_for_desired_native`, which passes exactly
`token_reserve + 2 = high + 2 - low`. -/
theorem searchLoopTrace_fuel_congr (p : LiquidityPool) (s d : ℕ) :
    ∀ (fuel fuel' low high best : ℕ),
      high + 2 - low ≤ fuel → high + 2 - low ≤ fuel' →
      LiquidityPool.searchLoopTrace p s d fuel low high best
        = LiquidityPool.searchLoopTrace p s d fuel' low high best := by
  intro fuel
  induction fuel with
  | zero =>
    intro fuel' low high best h h'
    have hno : ¬ low ≤ high := by omega
    cases fuel' with
    | zero => rfl
    | succ fuel'' =>
      simp only [LiquidityPool.searchLoopTrace]
      rw [if_neg hno]
  | succ fuel ih =>
    intro fuel' low high best h h'
    cases fuel' with
    | zero =>
      have hno : ¬ low ≤ high := by omega
      simp only [LiquidityPool.searchLoopTrace]
      rw [if_neg hno]
    | succ fuel'' =>
      simp only [LiquidityPool.searchLoopTrace]
      split
      case isFalse => rfl
      case isTrue hlh =>
        have hmid1 : low ≤ LiquidityPool.midPt low high := by
          unfold LiquidityPool.midPt; omega
        have hmid2 : LiquidityPool.midPt low high ≤ high := by
          unfold LiquidityPool.midPt; omega
        split
        · rfl
        rename_i v
        split
        · rfl
        split
        · split
          · rfl
          rename_i low₁ hca
          rw [checked_add64] at hca
          split at hca
          case isFalse => exact Option.noConfusion hca
          rename_i hlim
          injection hca with hlow₁
          split
          · rfl
          rw [ih fuel'' low₁ high best (by omega) (by omega)]
        · split
          · rfl
          rename_i high₁ hcs
          rw [checked_sub] at hcs
          split at hcs
          case isFalse => exact Option.noConfusion hcs
          rename_i hge1
          injection hcs with hhigh₁
          split
          · rfl
          rw [ih fuel'' low high₁ (LiquidityPool.midPt low high) (by omega) (by omega)]

/-- Fuel irrelevance for the plain loop, via the instrumented one. -/
theorem searchLoop_fuel_irrelevant (p : LiquidityPool) (s d fuel fuel' low high best : ℕ)
    (h : high + 2 - low ≤ fuel) (h' : high + 2 - low ≤ fuel') :
    LiquidityPool.searchLoop p s d fuel low high best
      = LiquidityPool.searchLoop p s d fuel' low high best := by
  rw [searchLoop_eq_trace, searchLoop_eq_trace,
      searchLoopTrace_fuel_congr p s d fuel fuel' low high best h h']

/-- Full characterisation of a successful instrumented search: every trace
entry is a faithful probe within the current bracket, and the result is
either an exact match in the trace, or the smallest traced overshoot, or
the untouched `best_guess` when every probe fell short. -/
theorem searchLoopTrace_spec (p : LiquidityPool) (s d : ℕ) :
    ∀ (fuel low high best r : ℕ) (tr : List (ℕ × ℕ)),
      LiquidityPool.searchLoopTrace p s d fuel low high best = .ok (r, tr) →
      (∀ mv ∈ tr,
        LiquidityPool.probeNative p s mv.1 = .ok mv.2 ∧ low ≤ mv.1 ∧ mv.1 ≤ high) ∧
      ((r, d) ∈ tr ∨
        ((∃ v, (r, v) ∈ tr ∧ d < v) ∧ ∀ mv ∈ tr, d ≤ mv.2 → r ≤ mv.1) ∨
        ((∀ mv ∈ tr, mv.2 < d) ∧ r = best)) := by
  intro fuel
  induction fuel with
  | zero =>
    intro low high best r tr heq
    injection heq with h
    injection h with h1 h2
    subst h1
    subst h2
    exact ⟨by simp, Or.inr (Or.inr ⟨by simp, rfl⟩)⟩
  | succ fuel ih =>
    intro low high best r tr heq
    simp only [LiquidityPool.searchLoopTrace] at heq
    split at heq
    case isFalse =>
      injection heq with h
      injection h with h1 h2
      subst h1
      subst h2
      exact ⟨by simp, Or.inr (Or.inr ⟨by simp, rfl⟩)⟩
    case isTrue hlh =>
      have hmid1 : low ≤ LiquidityPool.midPt low high := by
        unfold LiquidityPool.midPt; omega
      have hmid2 : LiquidityPool.midPt low high ≤ high := by
        unfold LiquidityPool.midPt; omega
      split at heq
      · exact Except.noConfusion heq
      rename_i v hprobe
      split at heq
      case isTrue hveq =>
        injection heq with h
        injection h with h1 h2
        subst h1
        subst h2
        refine ⟨?_, Or.inl ?_⟩
        · intro mv hmv
          rw [List.mem_singleton] at hmv
          subst hmv
          exact ⟨hprobe, hmid1, hmid2⟩
        · rw [← hveq]
          exact List.mem_singleton_self _
      case isFalse hvne =>
        split at heq
        case isTrue hvlt =>
          split at heq
          · exact Except.noConfusion heq
          rename_i low₁ hca
          rw [checked_add64] at hca
          split at hca
          case isFalse => exact Option.noConfusion hca
          rename_i hlim
          injection hca with hlow₁
          split at heq
          case isTrue hbrk =>
            injection heq with h
            injection h with h1 h2
            subst h1
            subst h2
            refine ⟨?_, Or.inr (Or.inr ⟨?_, rfl⟩)⟩
            · intro mv hmv
              rw [List.mem_singleton] at hmv
              subst hmv
              exact ⟨hprobe, hmid1, hmid2⟩
            · intro mv hmv
              rw [List.mem_singleton] at hmv
              subst hmv
              exact hvlt
          case isFalse hbrk =>
            split at heq
            · exact Except.noConfusion heq
            rename_i r' tr' hrec
            injection heq with h
            injection h with h1 h2
            subst h1
            subst h2
            obtain ⟨ihb, iht⟩ := ih low₁ high best r' tr' hrec
            subst hlow₁
            constructor
            · intro mv hmv
              rw [List.mem_cons] at hmv
              rcases hmv with hmv | hmv
              · subst hmv
                exact ⟨hprobe, hmid1, hmid2⟩
              · obtain ⟨hp, hl, hh⟩ := ihb mv hmv
                exact ⟨hp, by omega, hh⟩
            · rcases iht with hE | hG | hN
              · exact Or.inl (List.mem_cons_of_mem _ hE)
              · obtain ⟨⟨v', hv'mem, hv'⟩, hmin⟩ := hG
                refine Or.inr (Or.inl ⟨⟨v', List.mem_cons_of_mem _ hv'mem, hv'⟩, ?_⟩)
                intro mv hmv hd
                rw [List.mem_cons] at hmv
                rcases hmv with hmv | hmv
                · subst hmv
                  have hd' : d ≤ v := hd
                  omega
                · exact hmin mv hmv hd
              · obtain ⟨hlt, hrb⟩ := hN
                refine Or.inr (Or.inr ⟨?_, hrb⟩)
                intro mv hmv
                rw [List.mem_cons] at hmv
                rcases hmv with hmv | hmv
                · subst hmv
                  exact hvlt
                · exact hlt mv hmv
        case isFalse hvge =>
          have hdlt : d < v := by omega
          split at heq
          · exact Except.noConfusion heq
          rename_i high₁ hcs
          rw [checked_sub] at hcs
          split at hcs
          case isFalse => exact Option.noConfusion hcs
          rename_i hge1
          injection hcs with hhigh₁
          split at heq
          case isTrue hbrk =>
            injection heq with h
            injection h with h1 h2
            subst h1
            subst h2
            refine ⟨?_, Or.inr (Or.inl ⟨⟨v, List.mem_singleton_self _, hdlt⟩, ?_⟩)⟩
            · intro mv hmv
              rw [List.mem_singleton] at hmv
              subst hmv
              exact ⟨hprobe, hmid1, hmid2⟩
            · intro mv hmv hd
              rw [List.mem_singleton] at hmv
              subst hmv
              exact le_refl _
          case isFalse hbrk =>
            split at heq
            · exact Except.noConfusion heq
            rename_i r' tr' hrec
            injection heq with h
            injection h with h1 h2
            subst h1
            subst h2
            obtain ⟨ihb, iht⟩ := ih low high₁ (LiquidityPool.midPt low high) r' tr' hrec
            subst hhigh₁
            constructor
            · intro mv hmv
              rw [List.mem_cons] at hmv
              rcases hmv with hmv | hmv
              · subst hmv
                exact ⟨hprobe, hmid1, hmid2⟩
              · obtain ⟨hp, hl, hh⟩ := ihb mv hmv
                exact ⟨hp, hl, by omega⟩
            · rcases iht with hE | hG | hN
              · exact Or.inl (List.mem_cons_of_mem _ hE)
              · obtain ⟨⟨v', hv'mem, hv'⟩, hmin⟩ := hG
                have hrle : r' ≤ LiquidityPool.midPt low high - 1 := (ihb (r', v') hv'mem).2.2
                refine Or.inr (Or.inl ⟨⟨v', List.mem_cons_of_mem _ hv'mem, hv'⟩, ?_⟩)
                intro mv hmv hd
                rw [List.mem_cons] at hmv
                rcases hmv with hmv | hmv
                · subst hmv
                  show r' ≤ LiquidityPool.midPt low high
                  omega
                · exact hmin mv hmv hd
              · obtain ⟨hlt, hrb⟩ := hN
                subst hrb
                refine Or.inr (Or.inl ⟨⟨v, List.mem_cons_self _ _, hdlt⟩, ?_⟩)
                intro mv hmv hd
                rw [List.mem_cons] at hmv
                rcases hmv with hmv | hmv
                · subst hmv
                  exact le_refl _
                · have := hlt mv hmv
                  have hd' : d ≤ mv.2 := hd
                  omega

/-- C7 (counterexample): on `new(5, 20)` with an unreachable target
(sell 1 token for 1 000 000 native units) every probe falls short, so the
search returns its initial `best_guess = token_reserve = 20` — a value
that was never probed (the trace is `[(10,1), (15,4), (18,17)]`) and whose
trial `buy(20)` does not even succeed, let alone meet the target. -/
theorem c7_counterexample :
    LiquidityPool.new 5 20 = .ok poolJitter ∧
    (poolJitter.calculate_additional_tokens_for_desired_native 1 1000000).1 = .ok 20 ∧
    LiquidityPool.calcAdditionalTrace poolJitter 1 1000000
      = .ok (20, [(10, 1), (15, 4), (18, 17)]) ∧
    (∀ mv ∈ ([(10, 1), (15, 4), (18, 17)] : List (ℕ × ℕ)), mv.1 ≠ 20) ∧
    LiquidityPool.probeNative poolJitter 1 20 = .error .Overflow := by
  refine ⟨by decide, by decide, by decide, by decide, by decide⟩

/-- C7 (amended): whenever the solver returns `r` without an exact match
(no probe hit the target exactly), then either some probe overshot the
target — and `r` is the smallest probed buy size whose trial proceeds meet
or exceed the target, with `buy(r)`-then-`simulate_sell` on a copy of the
pool yielding more than `desired_native` — or no probe ever reached the
target, and `r` is the initial, never-verified `best_guess` of
`token_reserve`. -/
theorem c7_search_result_spec :
    ∀ (p : LiquidityPool) (s d r : ℕ) (p' : LiquidityPool),
      p.calculate_additional_tokens_for_desired_native s d = (.ok r, p') →
      ∃ tr, LiquidityPool.calcAdditionalTrace p s d = .ok (r, tr) ∧
        (∀ mv ∈ tr, LiquidityPool.probeNative p s mv.1 = .ok mv.2) ∧
        ((∀ mv ∈ tr, mv.2 ≠ d) →
          ((∃ v, (r, v) ∈ tr ∧ d < v) ∧ (∀ mv ∈ tr, d ≤ mv.2 → r ≤ mv.1)) ∨
          ((∀ mv ∈ tr, mv.2 < d) ∧ r = p.token_reserve)) := by
  intro p s d r p' h
  unfold LiquidityPool.calculate_additional_tokens_for_desired_native at h
  split at h
  · injection h with h1 h2
    exact Except.noConfusion h1
  rename_i hcond
  injection h with h1 h2
  rw [searchLoop_eq_trace] at h1
  cases htr : LiquidityPool.searchLoopTrace p s d (p.token_reserve + 2)
      0 p.token_reserve p.token_reserve with
  | error e =>
    rw [htr] at h1
    exact Except.noConfusion h1
  | ok pr =>
    obtain ⟨r', tr⟩ := pr
    rw [htr] at h1
    have hr : r' = r := Except.ok.inj h1
    subst hr
    obtain ⟨hb, ht⟩ := searchLoopTrace_spec p s d (p.token_reserve + 2)
      0 p.token_reserve p.token_reserve r' tr htr
    refine ⟨tr, ?_, fun mv hmv => (hb mv hmv).1, ?_⟩
    · unfold LiquidityPool.calcAdditionalTrace
      rw [if_neg hcond]
      exact htr
    · intro hne
      rcases ht with hE | hG | hN
      · exact absurd rfl (hne _ hE)
      · exact Or.inl hG
      · exact Or.inr hN

/-- C7 (witness): the amended specification applied to the §8 pool with
`sell_tokens = 100`, `desired_native = 120`, which returns 135. -/
theorem c7_witness :
    ∃ tr, LiquidityPool.calcAdditionalTrace poolK 100 120 = .ok (135, tr) ∧
      (∀ mv ∈ tr, LiquidityPool.probeNative poolK 100 mv.1 = .ok mv.2) ∧
      ((∀ mv ∈ tr, mv.2 ≠ 120) →
        ((∃ v, (135, v) ∈ tr ∧ 120 < v) ∧ (∀ mv ∈ tr, 120 ≤ mv.2 → 135 ≤ mv.1)) ∨
        ((∀ mv ∈ tr, mv.2 < 120) ∧ 135 = poolK.token_reserve)) :=
  c7_search_result_spec poolK 100 120 135 poolK (by decide)
